import Mathlib

/-
Verification of the williamboard event-ingestion pipeline.

Shallow embedding conventions:
* Go strings are modelled as `List Char`; `"…".data` converts a Lean string
  literal. ASCII fragments of Go's `strings.ToLower` / `strings.TrimSpace` /
  `strings.Fields` are modelled (the pipeline's keys, layouts and test data are
  ASCII).
* Go `float64` fields (scores, thresholds, coordinates) are modelled as exact
  rationals `ℚ`.
* `time.Time` is modelled as a calendar record `GoTime` (UTC wall clock, no
  time zone), ordered lexicographically, which agrees with instant order on
  valid calendar times.
* Database tables are modelled as Lean lists of row structures; `gorm`
  `First`/`Create`/`Update` become list lookup / append / in-place map.
-/

/-- Go `unicode.IsSpace` on the ASCII fragment (space, TAB, LF, VT, FF, CR),
as used by `strings.TrimSpace` and `strings.Fields`. -/
def goIsSpace (c : Char) : Bool :=
  c.toNat = 32 || (9 ≤ c.toNat && c.toNat ≤ 13)

/-- Go `unicode.ToLower` on the ASCII fragment: map A–Z (65–90) to a–z. -/
def goToLower (c : Char) : Char :=
  if 65 ≤ c.toNat ∧ c.toNat ≤ 90 then Char.ofNat (c.toNat + 32) else c

/-- Go `strings.ToLower` (ASCII fragment). -/
def lowerStr (s : List Char) : List Char := s.map goToLower

/-- Left part of Go `strings.TrimSpace`: drop leading white space. -/
def goTrimLeft (s : List Char) : List Char := s.dropWhile goIsSpace

/-- Right part of Go `strings.TrimSpace`: drop trailing white space. -/
def goTrimRight (s : List Char) : List Char :=
  (s.reverse.dropWhile goIsSpace).reverse

/-- Go `strings.TrimSpace`: drop leading and trailing white space. -/
def goTrimSpace (s : List Char) : List Char := goTrimRight (goTrimLeft s)

/-- Wall-clock calendar time, modelling Go `time.Time` in UTC. -/
structure GoTime where
  year : Nat
  month : Nat
  day : Nat
  hour : Nat
  minute : Nat
  second : Nat
deriving DecidableEq, Repr

/-- Gregorian leap-year rule, as in Go `time.isLeap`. -/
def isLeapYear (y : Nat) : Bool :=
  y % 4 = 0 && (y % 100 ≠ 0 || y % 400 = 0)

/-- Days in a month, as in Go `time.daysIn`. -/
def daysInMonth (y m : Nat) : Nat :=
  if m = 2 then (if isLeapYear y then 29 else 28)
  else if m = 4 ∨ m = 6 ∨ m = 9 ∨ m = 11 then 30
  else 31

/-- Go `t.Before(u)`: strict order on instants; on valid calendar times this is
the lexicographic order on (year, month, day, hour, minute, second). -/
def goBefore (a b : GoTime) : Bool :=
  if a.year ≠ b.year then decide (a.year < b.year)
  else if a.month ≠ b.month then decide (a.month < b.month)
  else if a.day ≠ b.day then decide (a.day < b.day)
  else if a.hour ≠ b.hour then decide (a.hour < b.hour)
  else if a.minute ≠ b.minute then decide (a.minute < b.minute)
  else decide (a.second < b.second)

/-- Go `t.AddDate(1, 0, 0)`: add one calendar year; the only normalization a
parsed date can need is Feb 29 of a leap year landing in a non-leap year,
which Go normalizes to Mar 1. -/
def addOneYear (t : GoTime) : GoTime :=
  if t.month = 2 ∧ t.day = 29 ∧ ¬ isLeapYear (t.year + 1) then
    { t with year := t.year + 1, month := 3, day := 1 }
  else
    { t with year := t.year + 1 }

/-- Go `t.Add(24 * time.Hour)` on a UTC wall clock: same time of day, next
calendar day. -/
def addOneDay (t : GoTime) : GoTime :=
  if t.day < daysInMonth t.year t.month then { t with day := t.day + 1 }
  else if t.month < 12 then { t with month := t.month + 1, day := 1 }
  else { t with year := t.year + 1, month := 1, day := 1 }

/-- Decimal digits of a natural number, zero-padded on the left to width 2,
as Go's format verb `01`/`02` prints months and days. -/
def pad2 (n : Nat) : List Char :=
  if n < 10 then '0' :: Nat.toDigits 10 n else Nat.toDigits 10 n

/-- Decimal digits of a natural number, zero-padded on the left to width 4,
as Go's format verb `2006` prints years. -/
def pad4 (n : Nat) : List Char :=
  List.replicate (4 - (Nat.toDigits 10 n).length) '0' ++ Nat.toDigits 10 n

/-- Go `t.Format("2006-01-02")`: the calendar date, ignoring time of day. -/
def formatYMD (t : GoTime) : List Char :=
  pad4 t.year ++ '-' :: (pad2 t.month ++ '-' :: pad2 t.day)

/-- Canonical key from `promoteToPublicEvent`
(`strings.ToLower(strings.TrimSpace(title)) + "_" + startTs.Format("2006-01-02")`). -/
def canonicalKeyChars (title : List Char) (startTs : GoTime) : List Char :=
  lowerStr (goTrimSpace title) ++ '_' :: formatYMD startTs

/-- Char.ofNat evaluates to its argument on valid code points. -/
theorem charToNat_ofNat (n : Nat) (h : n.isValidChar) :
    (Char.ofNat n).toNat = n := by
  unfold Char.ofNat
  rw [dif_pos h]
  rfl

/-- Lowercasing is idempotent character-wise. -/
theorem goToLower_goToLower (c : Char) : goToLower (goToLower c) = goToLower c := by
  unfold goToLower
  by_cases h : 65 ≤ c.toNat ∧ c.toNat ≤ 90
  · rw [if_pos h]
    have hv : (c.toNat + 32).isValidChar := Or.inl (by omega)
    have ht : (Char.ofNat (c.toNat + 32)).toNat = c.toNat + 32 := charToNat_ofNat _ hv
    rw [if_neg (by omega)]
  · rw [if_neg h, if_neg h]

/-- Lowercasing does not create or destroy white space. -/
theorem goIsSpace_goToLower (c : Char) : goIsSpace (goToLower c) = goIsSpace c := by
  unfold goToLower
  by_cases h : 65 ≤ c.toNat ∧ c.toNat ≤ 90
  · rw [if_pos h]
    have hv : (c.toNat + 32).isValidChar := Or.inl (by omega)
    have ht : (Char.ofNat (c.toNat + 32)).toNat = c.toNat + 32 := charToNat_ofNat _ hv
    unfold goIsSpace
    rw [ht]
    have h1 : ¬ (c.toNat + 32 = 32) := by omega
    have h2 : ¬ (c.toNat = 32) := by omega
    simp [h1, h2]
    omega
  · rw [if_neg h]

/-- Dropping white space skips over an all-space preamble. -/
theorem dropWhile_space_append (ws s : List Char) (h : ∀ c ∈ ws, goIsSpace c = true) :
    List.dropWhile goIsSpace (ws ++ s) = List.dropWhile goIsSpace s := by
  induction ws with
  | nil => rfl
  | cons c rest ih =>
      have hc : goIsSpace c = true := h c (List.mem_cons_self c rest)
      simp only [List.cons_append, List.dropWhile_cons, hc, if_true]
      exact ih (fun x hx => h x (List.mem_cons_of_mem c hx))

/-- An all-space list trims to nothing. -/
theorem dropWhile_space_all (ws : List Char) (h : ∀ c ∈ ws, goIsSpace c = true) :
    List.dropWhile goIsSpace ws = [] := by
  have := dropWhile_space_append ws [] h
  simpa using this

/-- Trailing white space is removed by the right trim. -/
theorem goTrimRight_append_space (s ws : List Char) (h : ∀ c ∈ ws, goIsSpace c = true) :
    goTrimRight (s ++ ws) = goTrimRight s := by
  unfold goTrimRight
  rw [List.reverse_append]
  rw [dropWhile_space_append ws.reverse s.reverse (fun c hc => h c (List.mem_reverse.mp hc))]

/-- Right trim after left trim ignores trailing white space. -/
theorem goTrim_core_append_space (t ws : List Char) (h : ∀ c ∈ ws, goIsSpace c = true) :
    goTrimRight (goTrimLeft (t ++ ws)) = goTrimRight (goTrimLeft t) := by
  induction t with
  | nil =>
      unfold goTrimLeft
      simp only [List.nil_append, List.dropWhile_nil]
      rw [dropWhile_space_all ws h]
  | cons c rest ih =>
      unfold goTrimLeft
      by_cases hc : goIsSpace c = true
      · simp only [List.cons_append, List.dropWhile_cons, hc, if_true]
        exact ih
      · simp only [List.cons_append, List.dropWhile_cons, hc, if_false]
        rw [show c :: (rest ++ ws) = (c :: rest) ++ ws from rfl]
        exact goTrimRight_append_space (c :: rest) ws h

/-- TrimSpace removes exactly the surrounding white space. -/
theorem goTrimSpace_pad (ws1 ws2 t : List Char)
    (h1 : ∀ c ∈ ws1, goIsSpace c = true) (h2 : ∀ c ∈ ws2, goIsSpace c = true) :
    goTrimSpace (ws1 ++ t ++ ws2) = goTrimSpace t := by
  unfold goTrimSpace goTrimLeft
  rw [List.append_assoc, dropWhile_space_append ws1 (t ++ ws2) h1]
  exact goTrim_core_append_space t ws2 h2

/-- Lowercasing commutes with dropping leading white space. -/
theorem dropWhile_space_map_lower (s : List Char) :
    List.dropWhile goIsSpace (s.map goToLower) = (List.dropWhile goIsSpace s).map goToLower := by
  induction s with
  | nil => rfl
  | cons c rest ih =>
      simp only [List.map_cons, List.dropWhile_cons, goIsSpace_goToLower]
      by_cases hc : goIsSpace c = true
      · simp [hc, ih]
      · simp [hc]

/-- Lowercasing commutes with TrimSpace. -/
theorem goTrimSpace_lowerStr (s : List Char) :
    goTrimSpace (lowerStr s) = lowerStr (goTrimSpace s) := by
  unfold goTrimSpace goTrimLeft goTrimRight lowerStr
  rw [dropWhile_space_map_lower, ← List.map_reverse, dropWhile_space_map_lower,
    ← List.map_reverse]

/-- Lowercasing a list twice is the same as once. -/
theorem lowerStr_lowerStr (s : List Char) : lowerStr (lowerStr s) = lowerStr s := by
  unfold lowerStr
  induction s with
  | nil => rfl
  | cons c rest ih => simp only [List.map_cons, goToLower_goToLower, ih]

/-- Value of an ASCII decimal digit character. -/
def parseDigit (c : Char) : Option Nat :=
  if 48 ≤ c.toNat ∧ c.toNat ≤ 57 then some (c.toNat - 48) else none

/-- Go `getnum` with `fixed = true` for a two-digit verb: exactly two digits. -/
def parseNum2Fixed : List Char → Option (Nat × List Char)
  | a :: b :: rest =>
      match parseDigit a, parseDigit b with
      | some x, some y => some (10 * x + y, rest)
      | _, _ => none
  | _ => none

/-- Go year verb `2006`: exactly four digits. -/
def parseNum4Fixed : List Char → Option (Nat × List Char)
  | a :: b :: c :: d :: rest =>
      match parseDigit a, parseDigit b, parseDigit c, parseDigit d with
      | some w, some x, some y, some z => some (1000 * w + 100 * x + 10 * y + z, rest)
      | _, _, _, _ => none
  | _ => none

/-- Go `getnum` with `fixed = false` (verbs `15`, `2`): two digits if the
second character is a digit, else one. -/
def parseNum1or2 : List Char → Option (Nat × List Char)
  | [] => none
  | [a] => (parseDigit a).map (fun x => (x, ([] : List Char)))
  | a :: b :: rest =>
      match parseDigit a with
      | none => none
      | some x =>
          match parseDigit b with
          | some y => some (10 * x + y, rest)
          | none => some (x, b :: rest)

/-- Consume one expected literal character of the layout. -/
def expectChar (c : Char) : List Char → Option (List Char)
  | x :: rest => if x = c then some rest else none
  | [] => none

/-- Parse the `2006-01-02` part of a layout, with Go's month and day range
checks. -/
def parseYMDpart (s : List Char) : Option ((Nat × Nat × Nat) × List Char) := do
  let (y, s1) ← parseNum4Fixed s
  let s2 ← expectChar '-' s1
  let (mo, s3) ← parseNum2Fixed s2
  let s4 ← expectChar '-' s3
  let (d, s5) ← parseNum2Fixed s4
  if 1 ≤ mo ∧ mo ≤ 12 ∧ 1 ≤ d ∧ d ≤ daysInMonth y mo then
    some ((y, mo, d), s5)
  else
    none

/-- Parse the `15:04` part of a layout, with Go's hour and minute range
checks. -/
def parseHMpart (s : List Char) : Option ((Nat × Nat) × List Char) := do
  let (h, s1) ← parseNum1or2 s
  let s2 ← expectChar ':' s1
  let (mi, s3) ← parseNum2Fixed s2
  if h ≤ 23 ∧ mi ≤ 59 then some ((h, mi), s3) else none

/-- Parse the `:05` seconds tail, with Go's range check. -/
def parseSecPart (s : List Char) : Option (Nat × List Char) := do
  let s1 ← expectChar ':' s
  let (sec, s2) ← parseNum2Fixed s1
  if sec ≤ 59 then some (sec, s2) else none

/-- Layout `2006-01-02T15:04:05` (`sep` is the literal between date and time,
'T' or ' '; `withSec` selects the `:05` tail). -/
def parseDateTimeLayout (sep : Char) (withSec : Bool) (s : List Char) : Option GoTime := do
  let ((y, mo, d), s1) ← parseYMDpart s
  let s2 ← expectChar sep s1
  let ((h, mi), s3) ← parseHMpart s2
  if withSec then
    let (sec, s4) ← parseSecPart s3
    if s4 = [] then some ⟨y, mo, d, h, mi, sec⟩ else none
  else
    if s3 = [] then some ⟨y, mo, d, h, mi, 0⟩ else none

/-- Layout `2006-01-02`: a bare date, midnight UTC. -/
def parseDateOnlyLayout (s : List Char) : Option GoTime := do
  let ((y, mo, d), s1) ← parseYMDpart s
  if s1 = [] then some ⟨y, mo, d, 0, 0, 0⟩ else none

/-- Long month names, as in Go `time.longMonthNames`. -/
def longMonthNames : List (List Char) :=
  ["January".data, "February".data, "March".data, "April".data, "May".data,
   "June".data, "July".data, "August".data, "September".data, "October".data,
   "November".data, "December".data]

/-- Short month names, as in Go `time.shortMonthNames`. -/
def shortMonthNames : List (List Char) :=
  ["Jan".data, "Feb".data, "Mar".data, "Apr".data, "May".data, "Jun".data,
   "Jul".data, "Aug".data, "Sep".data, "Oct".data, "Nov".data, "Dec".data]

/-- Boolean list-head matching. -/
def hasPre : List Char → List Char → Bool
  | [], _ => true
  | _ :: _, [] => false
  | p :: ps, c :: cs => p = c && hasPre ps cs

/-- ASCII case-insensitive head matching, as in Go `time.match`. -/
def ciHasPre (pat s : List Char) : Bool :=
  hasPre (lowerStr pat) (lowerStr s)

/-- Go `time.lookup`: find the first case-insensitive month-name match and
return its 1-based index and the rest of the input. -/
def monthLookupAux : Nat → List (List Char) → List Char → Option (Nat × List Char)
  | _, [], _ => none
  | i, n :: rest, s =>
      if ciHasPre n s then some (i + 1, s.drop n.length)
      else monthLookupAux (i + 1) rest s

/-- Month-name lookup starting at index 0. -/
def monthLookup (names : List (List Char)) (s : List Char) : Option (Nat × List Char) :=
  monthLookupAux 0 names s

/-- Layouts `January 2, 2006` and `Jan 2, 2006`: month name, day, comma,
four-digit year; midnight UTC, with Go's day range check. -/
def parseMonthNameLayout (names : List (List Char)) (s : List Char) : Option GoTime := do
  let (mo, s1) ← monthLookup names s
  let s2 ← expectChar ' ' s1
  let (d, s3) ← parseNum1or2 s2
  let s4 ← expectChar ',' s3
  let s5 ← expectChar ' ' s4
  let (y, s6) ← parseNum4Fixed s5
  if s6 = [] ∧ 1 ≤ d ∧ d ≤ daysInMonth y mo then some ⟨y, mo, d, 0, 0, 0⟩ else none

/-- Go `time.Parse(layout, s)` restricted to the seven layouts the promotion
code uses (other layouts never occur there). -/
def goTimeParse (layout s : List Char) : Option GoTime :=
  if layout = "2006-01-02T15:04:05".data then parseDateTimeLayout 'T' true s
  else if layout = "2006-01-02 15:04:05".data then parseDateTimeLayout ' ' true s
  else if layout = "2006-01-02T15:04".data then parseDateTimeLayout 'T' false s
  else if layout = "2006-01-02 15:04".data then parseDateTimeLayout ' ' false s
  else if layout = "2006-01-02".data then parseDateOnlyLayout s
  else if layout = "January 2, 2006".data then parseMonthNameLayout longMonthNames s
  else if layout = "Jan 2, 2006".data then parseMonthNameLayout shortMonthNames s
  else none

/-- The ordered start-time format list from `promoteToPublicEvent`. -/
def startFormats : List (List Char) :=
  ["2006-01-02T15:04:05".data,
   "2006-01-02 15:04:05".data,
   "2006-01-02T15:04".data,
   "2006-01-02 15:04".data,
   "2006-01-02".data,
   "January 2, 2006".data,
   "Jan 2, 2006".data]

/-- The ordered end-time format list from the admin `promoteToPublicEvent`. -/
def endFormats : List (List Char) :=
  ["2006-01-02 15:04:05".data,
   "2006-01-02T15:04:05".data,
   "2006-01-02 15:04".data,
   "2006-01-02T15:04".data,
   "2006-01-02".data]

/-- The format loop: try each layout in order, first successful parse wins. -/
def tryFormatsFirst : List (List Char) → List Char → Option GoTime
  | [], _ => none
  | f :: rest, s =>
      match goTimeParse f s with
      | some t => some t
      | none => tryFormatsFirst rest s

/-- Start-time resolution from `promoteToPublicEvent`: empty date string or no
matching format falls back to now + 24h; a parsed instant strictly before now
is shifted one year forward. -/
def resolveStartTime (dateStr : List Char) (now : GoTime) : GoTime :=
  if dateStr = [] then addOneDay now
  else
    match tryFormatsFirst startFormats dateStr with
    | some t => if goBefore t now then addOneYear t else t
    | none => addOneDay now

/-- C6: the canonical key is lowercase(trim(title)) + "_" + the calendar date
of the start timestamp; it is case-insensitive, whitespace-insensitive (in
leading/trailing white space, which is what trim removes) and
time-of-day-insensitive, and key("Jazz Night", 2024-07-15T19:00) equals
key(" jazz night ", 2024-07-15T08:00). -/
theorem claim_C6_canonicalization :
    (∀ title t, canonicalKeyChars title t =
        lowerStr (goTrimSpace title) ++ '_' :: formatYMD t) ∧
    (∀ title y mo d h1 mi1 s1 h2 mi2 s2,
        canonicalKeyChars title ⟨y, mo, d, h1, mi1, s1⟩ =
          canonicalKeyChars title ⟨y, mo, d, h2, mi2, s2⟩) ∧
    (∀ title t, canonicalKeyChars (lowerStr title) t = canonicalKeyChars title t) ∧
    (∀ ws1 ws2 title t,
        (∀ c ∈ ws1, goIsSpace c = true) → (∀ c ∈ ws2, goIsSpace c = true) →
        canonicalKeyChars (ws1 ++ title ++ ws2) t = canonicalKeyChars title t) ∧
    canonicalKeyChars "Jazz Night".data ⟨2024, 7, 15, 19, 0, 0⟩ =
      canonicalKeyChars " jazz night ".data ⟨2024, 7, 15, 8, 0, 0⟩ := by
  refine ⟨fun _ _ => rfl, fun _ _ _ _ _ _ _ _ _ _ => rfl, ?_, ?_, by decide⟩
  · intro title t
    unfold canonicalKeyChars
    rw [goTrimSpace_lowerStr, lowerStr_lowerStr]
  · intro ws1 ws2 title t h1 h2
    unfold canonicalKeyChars
    rw [goTrimSpace_pad ws1 ws2 title h1 h2]

/-- Witness for C6 at a concrete padded, re-cased title. -/
theorem claim_C6_canonicalization_witness :
    (∀ c ∈ [' ', ' '], goIsSpace c = true) ∧
    canonicalKeyChars ([' ', ' '] ++ "Jazz Night".data ++ [' ']) ⟨2024, 7, 15, 19, 0, 0⟩ =
      canonicalKeyChars "Jazz Night".data ⟨2024, 7, 15, 19, 0, 0⟩ :=
  ⟨by decide,
   claim_C6_canonicalization.2.2.2.1 [' ', ' '] [' '] "Jazz Night".data
     ⟨2024, 7, 15, 19, 0, 0⟩ (by decide) (by decide)⟩

/-- C7: start-time resolution tries the fixed ordered format list and takes
the first match; a parsed instant strictly before now is shifted one year
("2024-01-01" with now after it becomes 2025-01-01); with no matching format
the start time is now + 24 hours. -/
theorem claim_C7_start_time_resolution :
    (∀ s now t, tryFormatsFirst startFormats s = some t →
        resolveStartTime s now = (if goBefore t now then addOneYear t else t)) ∧
    (∀ s now, tryFormatsFirst startFormats s = none →
        resolveStartTime s now = addOneDay now) ∧
    (∀ now, goBefore ⟨2024, 1, 1, 0, 0, 0⟩ now = true →
        resolveStartTime "2024-01-01".data now = ⟨2025, 1, 1, 0, 0, 0⟩) ∧
    (∀ now, resolveStartTime "next Friday".data now = addOneDay now) := by
  refine ⟨?_, ?_, ?_, ?_⟩
  · intro s now t h
    unfold resolveStartTime
    by_cases hs : s = []
    · subst hs
      rw [show tryFormatsFirst startFormats [] = none from by decide] at h
      exact absurd h (by simp)
    · rw [if_neg hs, h]
  · intro s now h
    unfold resolveStartTime
    by_cases hs : s = []
    · rw [if_pos hs]
    · rw [if_neg hs, h]
  · intro now h
    unfold resolveStartTime
    rw [if_neg (by decide),
      show tryFormatsFirst startFormats "2024-01-01".data = some ⟨2024, 1, 1, 0, 0, 0⟩
        from by decide]
    show (if goBefore ⟨2024, 1, 1, 0, 0, 0⟩ now = true
        then addOneYear ⟨2024, 1, 1, 0, 0, 0⟩ else ⟨2024, 1, 1, 0, 0, 0⟩) =
      ⟨2025, 1, 1, 0, 0, 0⟩
    rw [if_pos h]
    decide
  · intro now
    unfold resolveStartTime
    rw [if_neg (by decide),
      show tryFormatsFirst startFormats "next Friday".data = none from by decide]

/-- Witness for C7: the past-date rule at a concrete clock. -/
theorem claim_C7_start_time_resolution_witness :
    goBefore ⟨2024, 1, 1, 0, 0, 0⟩ ⟨2024, 6, 1, 12, 0, 0⟩ = true ∧
    resolveStartTime "2024-01-01".data ⟨2024, 6, 1, 12, 0, 0⟩ = ⟨2025, 1, 1, 0, 0, 0⟩ :=
  ⟨by decide, claim_C7_start_time_resolution.2.2.1 ⟨2024, 6, 1, 12, 0, 0⟩ (by decide)⟩

/-- Extracted event fields of one candidate, modelling the JSON object the
handlers read out of `candidate.Fields` (`fields["title"].(string)` etc.);
`none` covers both an absent key and a non-string value. -/
structure EventData where
  title : Option (List Char)
  date : Option (List Char)
  dateTime : Option (List Char)
  venue : Option (List Char)
  address : Option (List Char)
  description : Option (List Char)
  url : Option (List Char)
  price : Option (List Char)
  organizer : Option (List Char)
  endDate : Option (List Char)
deriving DecidableEq, Repr

/-- A field counts as present when it exists and is non-empty after
TrimSpace, as the mock moderation checks. -/
def presentStr : Option (List Char) → Bool
  | some s => !(goTrimSpace s).isEmpty
  | none => false

/-- The six quality factors returned by the moderation classifier. -/
structure QualityFactors where
  eventDetailsComplete : ℚ
  dateTimeConfidence : ℚ
  venueConfidence : ℚ
  contactInfoPresent : ℚ
  professionalLooking : ℚ
  textReadability : ℚ
deriving DecidableEq, Repr

/-- Embeds `calculateQualityScore`: the weighted composite score with the fixed
weights 0.25 / 0.20 / 0.20 / 0.15 / 0.15 / 0.05 (the Go weight map resolved
at its six call sites). -/
def calculateQualityScore (f : QualityFactors) : ℚ :=
  f.eventDetailsComplete * 0.25 + f.dateTimeConfidence * 0.20 +
    f.venueConfidence * 0.20 + f.contactInfoPresent * 0.15 +
    f.professionalLooking * 0.15 + f.textReadability * 0.05

/-- A moderation outcome for one candidate (`services.ModerationResult`;
the `ConfidenceFactors` map is not needed by any claim). -/
structure ModerationResult where
  qualityScore : ℚ
  isAppropriate : Bool
  moderationReason : Option (List Char)
deriving DecidableEq, Repr

/-- Embeds `mockModerationResult`: the local heuristic — base 0.75, +0.10 for a
title, +0.05 each for venue and date (all judged non-empty after trim),
capped at 1.0, appropriate, no reason. -/
def mockModerationResult (d : EventData) : ModerationResult :=
  let q0 : ℚ := 0.75
  let q1 := if presentStr d.title then q0 + 0.1 else q0
  let q2 := if presentStr d.venue then q1 + 0.05 else q1
  let q3 := if presentStr d.date then q2 + 0.05 else q2
  let q4 := if q3 > 1 then 1 else q3
  ⟨q4, true, none⟩

/-- Outcome of the one external classifier call, as seen by
`ModerateEventCandidate`: transport failure (including context timeout),
an empty choice list, a reply `json.Unmarshal` rejects, or a parsed reply. -/
inductive ApiOutcome where
  | failure
  | noChoices
  | unparsable
  | parsed (factors : QualityFactors) (isAppropriate : Bool) (reason : Option (List Char))
deriving DecidableEq, Repr

/-- Errors `ModerateEventCandidate` returns to its caller. -/
inductive ModErr where
  | apiFailed
  | noResponse
deriving DecidableEq, Repr

/-- Embeds `ModerateEventCandidate`: with no client configured the heuristic is
used; an API failure or an empty reply is returned as an error; an
unparsable reply falls back to the heuristic; a parsed reply is scored with
`calculateQualityScore`. -/
def moderateEventCandidate (hasClient : Bool) (outcome : ApiOutcome) (d : EventData) :
    Except ModErr ModerationResult :=
  if !hasClient then .ok (mockModerationResult d)
  else
    match outcome with
    | .failure => .error .apiFailed
    | .noChoices => .error .noResponse
    | .unparsable => .ok (mockModerationResult d)
    | .parsed factors app reason => .ok ⟨calculateQualityScore factors, app, reason⟩

/-- The moderation stage as `processEventCandidate` runs it: a moderation
error is replaced by the default result score 0.5 / appropriate. -/
def moderationStageResult (hasClient : Bool) (outcome : ApiOutcome) (d : EventData) :
    ModerationResult :=
  match moderateEventCandidate hasClient outcome d with
  | .error _ => ⟨0.5, true, none⟩
  | .ok r => r

/-- The heuristic score written the way the spec words it: one capped sum of
base and bonuses (for comparison with `mockModerationResult`). -/
def mockScoreSpec (d : EventData) : ℚ :=
  let raw : ℚ := 0.75 + (if presentStr d.title then 0.1 else 0) +
    (if presentStr d.venue then 0.05 else 0) + (if presentStr d.date then 0.05 else 0)
  if raw > 1 then 1 else raw

/-- Candidate publish decisions. -/
inductive PublishDecision where
  | published
  | blocked
  | needsReview
deriving DecidableEq, Repr

/-- What the decision block of `processEventCandidate` writes to the
candidate: composite score, decision, reason, and whether
`promoteToPublicEvent` was invoked synchronously. -/
structure CandidateDecision where
  compositeScore : ℚ
  decision : PublishDecision
  reason : Option (List Char)
  promotionTriggered : Bool
deriving DecidableEq, Repr

/-- Default `AUTO_PUBLISH_THRESHOLD` from config. -/
def autoPublishThresholdDefault : ℚ := 0.80

/-- The decision rule of `processEventCandidate`: not appropriate → blocked
with the assessment's reason; score ≥ threshold → published with the
auto-publish reason and synchronous promotion; otherwise needs_review. -/
def decideCandidate (autoPublishThreshold : ℚ) (m : ModerationResult) :
    CandidateDecision :=
  if !m.isAppropriate then
    ⟨m.qualityScore, .blocked, m.moderationReason, false⟩
  else if m.qualityScore ≥ autoPublishThreshold then
    ⟨m.qualityScore, .published, some "auto-published (high quality score)".data, true⟩
  else
    ⟨m.qualityScore, .needsReview, some "requires manual review (low quality score)".data, false⟩

/-- C1: the decision engine blocks an inappropriate candidate with the
assessment's reason regardless of score; otherwise a composite score at or
above the 0.80 default threshold publishes (score 0.80 publishes, 0.79 does
not) with the auto-publish reason and synchronous promotion; otherwise the
candidate needs review with the manual-review reason. -/
theorem claim_C1_decision_engine :
    (∀ m : ModerationResult, m.isAppropriate = false →
        decideCandidate autoPublishThresholdDefault m =
          ⟨m.qualityScore, .blocked, m.moderationReason, false⟩) ∧
    (∀ m : ModerationResult, m.isAppropriate = true →
        m.qualityScore ≥ autoPublishThresholdDefault →
        decideCandidate autoPublishThresholdDefault m =
          ⟨m.qualityScore, .published,
            some "auto-published (high quality score)".data, true⟩) ∧
    (∀ m : ModerationResult, m.isAppropriate = true →
        m.qualityScore < autoPublishThresholdDefault →
        decideCandidate autoPublishThresholdDefault m =
          ⟨m.qualityScore, .needsReview,
            some "requires manual review (low quality score)".data, false⟩) ∧
    autoPublishThresholdDefault = 0.80 ∧
    (decideCandidate autoPublishThresholdDefault ⟨0.80, true, none⟩).decision =
      .published ∧
    (decideCandidate autoPublishThresholdDefault ⟨0.79, true, none⟩).decision =
      .needsReview := by
  refine ⟨?_, ?_, ?_, rfl, ?_, ?_⟩
  · intro m h
    unfold decideCandidate
    rw [h]
    rfl
  · intro m h hs
    unfold decideCandidate
    rw [h]
    simp only [Bool.not_true]
    rw [if_neg (by simp), if_pos hs]
  · intro m h hs
    unfold decideCandidate
    rw [h]
    simp only [Bool.not_true]
    rw [if_neg (by simp), if_neg (by exact not_le.mpr hs)]
  · unfold decideCandidate autoPublishThresholdDefault
    norm_num
  · unfold decideCandidate autoPublishThresholdDefault
    norm_num

/-- Witness for C1: a blocked candidate at a concrete assessment. -/
theorem claim_C1_decision_engine_witness :
    decideCandidate autoPublishThresholdDefault ⟨0.95, false, some "spam".data⟩ =
      ⟨0.95, .blocked, some "spam".data, false⟩ :=
  claim_C1_decision_engine.1 ⟨0.95, false, some "spam".data⟩ rfl

/-- Range bounds for the six quality factors. -/
def factorsInRange (f : QualityFactors) : Prop :=
  (0 ≤ f.eventDetailsComplete ∧ f.eventDetailsComplete ≤ 1) ∧
  (0 ≤ f.dateTimeConfidence ∧ f.dateTimeConfidence ≤ 1) ∧
  (0 ≤ f.venueConfidence ∧ f.venueConfidence ≤ 1) ∧
  (0 ≤ f.contactInfoPresent ∧ f.contactInfoPresent ≤ 1) ∧
  (0 ≤ f.professionalLooking ∧ f.professionalLooking ≤ 1) ∧
  (0 ≤ f.textReadability ∧ f.textReadability ≤ 1)

/-- Componentwise order on factor vectors. -/
def factorsLE (f g : QualityFactors) : Prop :=
  f.eventDetailsComplete ≤ g.eventDetailsComplete ∧
  f.dateTimeConfidence ≤ g.dateTimeConfidence ∧
  f.venueConfidence ≤ g.venueConfidence ∧
  f.contactInfoPresent ≤ g.contactInfoPresent ∧
  f.professionalLooking ≤ g.professionalLooking ∧
  f.textReadability ≤ g.textReadability

/-- C5: the confidence scorer is exactly the weighted sum with weights
0.25/0.20/0.20/0.15/0.15/0.05 (which sum to 1), its output lies in [0,1] on
in-range factors, and it is monotone non-decreasing in every factor. -/
theorem claim_C5_confidence_scorer :
    (∀ f : QualityFactors, calculateQualityScore f =
        f.eventDetailsComplete * 0.25 + f.dateTimeConfidence * 0.20 +
          f.venueConfidence * 0.20 + f.contactInfoPresent * 0.15 +
          f.professionalLooking * 0.15 + f.textReadability * 0.05) ∧
    ((0.25 : ℚ) + 0.20 + 0.20 + 0.15 + 0.15 + 0.05 = 1) ∧
    (∀ f : QualityFactors, factorsInRange f →
        0 ≤ calculateQualityScore f ∧ calculateQualityScore f ≤ 1) ∧
    (∀ f g : QualityFactors, factorsLE f g →
        calculateQualityScore f ≤ calculateQualityScore g) := by
  refine ⟨fun _ => rfl, by norm_num, ?_, ?_⟩
  · rintro f ⟨⟨h1a, h1b⟩, ⟨h2a, h2b⟩, ⟨h3a, h3b⟩, ⟨h4a, h4b⟩, ⟨h5a, h5b⟩, ⟨h6a, h6b⟩⟩
    unfold calculateQualityScore
    constructor
    · nlinarith
    · nlinarith
  · rintro f g ⟨h1, h2, h3, h4, h5, h6⟩
    unfold calculateQualityScore
    nlinarith

/-- Witness for C5 at a concrete in-range factor vector. -/
theorem claim_C5_confidence_scorer_witness :
    factorsInRange ⟨1, 1, 1, 1, 1, 1⟩ ∧
    (0 ≤ calculateQualityScore ⟨1, 1, 1, 1, 1, 1⟩ ∧
      calculateQualityScore ⟨1, 1, 1, 1, 1, 1⟩ ≤ 1) :=
  ⟨by constructor <;> norm_num [factorsInRange],
   claim_C5_confidence_scorer.2.2.1 ⟨1, 1, 1, 1, 1, 1⟩
     (by constructor <;> norm_num [factorsInRange])⟩

/-- A concrete candidate with a title only, used to separate the heuristic
from the pipeline's error default. -/
def exEventData : EventData :=
  ⟨some "Jazz Night".data, none, none, none, none, none, none, none, none, none⟩

/-- C4 counterexample: on a classifier capability failure the stage result is
the pipeline default 0.5 (from `processEventCandidate`'s error branch), not
the heuristic 0.85 that `mockModerationResult` would assign this candidate. -/
theorem claim_C4_counterexample :
    moderationStageResult true ApiOutcome.failure exEventData = ⟨0.5, true, none⟩ ∧
    mockModerationResult exEventData = ⟨0.85, true, none⟩ ∧
    (0.5 : ℚ) ≠ 0.85 := by
  refine ⟨rfl, ?_, by norm_num⟩
  have ht : presentStr exEventData.title = true := by decide
  have hv : presentStr exEventData.venue = false := by decide
  have hd : presentStr exEventData.date = false := by decide
  simp only [mockModerationResult, ht, hv, hd, if_true, if_false]
  norm_num

/-- C4 (amended): an unparsable classifier reply — and any call without a
configured client — yields the local heuristic (base 0.75, +0.10 title,
+0.05 each venue/date, capped at 1.0, appropriate, no reason), while a
capability failure or timeout and an empty reply are returned as errors,
which `processEventCandidate` replaces with the default score 0.5 /
appropriate / no reason instead of the heuristic. -/
theorem claim_C4_moderation_fallback :
    (∀ d, moderationStageResult true ApiOutcome.unparsable d = mockModerationResult d) ∧
    (∀ o d, moderationStageResult false o d = mockModerationResult d) ∧
    (∀ d, moderateEventCandidate true ApiOutcome.failure d = .error .apiFailed) ∧
    (∀ d, moderateEventCandidate true ApiOutcome.noChoices d = .error .noResponse) ∧
    (∀ d, moderationStageResult true ApiOutcome.failure d = ⟨0.5, true, none⟩) ∧
    (∀ d, moderationStageResult true ApiOutcome.noChoices d = ⟨0.5, true, none⟩) ∧
    (∀ d, (mockModerationResult d).qualityScore = mockScoreSpec d ∧
        (mockModerationResult d).isAppropriate = true ∧
        (mockModerationResult d).moderationReason = none) := by
  refine ⟨fun _ => rfl, fun _ _ => rfl, fun _ => rfl, fun _ => rfl, fun _ => rfl,
    fun _ => rfl, ?_⟩
  intro d
  refine ⟨?_, rfl, rfl⟩
  unfold mockModerationResult mockScoreSpec
  by_cases h1 : presentStr d.title <;> by_cases h2 : presentStr d.venue <;>
    by_cases h3 : presentStr d.date <;> simp [h1, h2, h3]

/-- Go `strings.Contains(s, pat)` (arguments here: pattern first, then the
string searched). -/
def goContains (pat : List Char) : List Char → Bool
  | [] => hasPre pat []
  | c :: rest => hasPre pat (c :: rest) || goContains pat rest

/-- Helper for Go `strings.Fields`: count maximal runs of non-space
characters; the flag records whether a word is in progress. -/
def fieldsCountAux : Bool → List Char → Nat
  | _, [] => 0
  | inWord, c :: r =>
      if goIsSpace c then fieldsCountAux false r
      else (if inWord then 0 else 1) + fieldsCountAux true r

/-- Embeds `len(strings.Fields(address))`: the number of whitespace-delimited
tokens. -/
def fieldsCount (s : List Char) : Nat := fieldsCountAux false s

/-- Embeds `services.GeocodeResult`; the components map is modelled by its three
keys the stub writes, and the raw-response payload is omitted. -/
structure GeocodeResult where
  latitude : ℚ
  longitude : ℚ
  formattedAddress : List Char
  confidence : ℚ
  city : List Char
  state : List Char
  country : List Char
deriving DecidableEq, Repr

/-- Embeds `mockGeocodeResult`: the deterministic stub — substring-match the known
city names in order (New York / NY, Los Angeles / LA, Chicago, Seattle) over
the lowercased address, defaulting to San Francisco; confidence 0.8 when the
address has a comma and more than three tokens, else 0.7. -/
def mockGeocodeResult (address : List Char) : GeocodeResult :=
  let addressLower := lowerStr address
  let latLng : ℚ × ℚ :=
    if goContains "new york".data addressLower || goContains "ny".data addressLower then
      (40.7128, -74.0060)
    else if goContains "los angeles".data addressLower || goContains "la".data addressLower then
      (34.0522, -118.2437)
    else if goContains "chicago".data addressLower then (41.8781, -87.6298)
    else if goContains "seattle".data addressLower then (47.6062, -122.3321)
    else (37.7749, -122.4194)
  let confidence : ℚ :=
    if goContains ",".data address = true ∧ 3 < fieldsCount address then 0.8 else 0.7
  ⟨latLng.1, latLng.2, address, confidence, "Mock City".data, "CA".data, "US".data⟩

/-- Embeds `GeocodeAddress` restricted to the credential check: with no API key (or
the placeholder key) it returns the stub result; the live Mapbox path is not
modelled (`none`). -/
def geocodeAddressStub (apiKey address : List Char) : Option GeocodeResult :=
  if apiKey = [] ∨ apiKey = "your-mapbox-api-key".data then
    some (mockGeocodeResult address)
  else none

/-- C9 counterexample: "Seattle Plaza" contains "Seattle", but its lowercase
form also contains "la", which the stub checks first, so it resolves to the
Los Angeles coordinates, not (47.6062, -122.3321). -/
theorem claim_C9_counterexample :
    goContains "seattle".data (lowerStr "Seattle Plaza".data) = true ∧
    (mockGeocodeResult "Seattle Plaza".data).latitude = 34.0522 ∧
    (34.0522 : ℚ) ≠ 47.6062 := by
  refine ⟨by decide, ?_, by norm_num⟩
  rfl

/-- C9 (amended): with no credential configured, GeocodeAddress returns the
stub; an address containing "seattle" (case-insensitively) whose lowercase
form does not contain any of the earlier-checked patterns "new york", "ny",
"los angeles", "la", "chicago" resolves to (47.6062, -122.3321), with
confidence 0.8 when the address contains a comma and has more than three
whitespace-delimited tokens and 0.7 otherwise. -/
theorem claim_C9_geocode_stub (address : List Char)
    (h1 : goContains "new york".data (lowerStr address) = false)
    (h2 : goContains "ny".data (lowerStr address) = false)
    (h3 : goContains "los angeles".data (lowerStr address) = false)
    (h4 : goContains "la".data (lowerStr address) = false)
    (h5 : goContains "chicago".data (lowerStr address) = false)
    (h6 : goContains "seattle".data (lowerStr address) = true) :
    geocodeAddressStub [] address = some (mockGeocodeResult address) ∧
    (mockGeocodeResult address).latitude = 47.6062 ∧
    (mockGeocodeResult address).longitude = -122.3321 ∧
    (mockGeocodeResult address).confidence =
      (if goContains ",".data address = true ∧ 3 < fieldsCount address
        then (0.8 : ℚ) else 0.7) := by
  refine ⟨?_, ?_, ?_, ?_⟩
  · unfold geocodeAddressStub
    rw [if_pos (Or.inl rfl)]
  · unfold mockGeocodeResult
    simp only [h1, h2, h3, h4, h5, h6, Bool.or_false, Bool.or_self, if_false, if_true]
    norm_num
  · unfold mockGeocodeResult
    simp only [h1, h2, h3, h4, h5, h6, Bool.or_false, Bool.or_self, if_false, if_true]
    norm_num
  · unfold mockGeocodeResult
    simp only [h1, h2, h3, h4, h5, h6, Bool.or_false, Bool.or_self, if_false, if_true]

/-- Witness for C9 at the concrete address "123 Pike St, Seattle". -/
theorem claim_C9_geocode_stub_witness :
    goContains "seattle".data (lowerStr "123 Pike St, Seattle".data) = true ∧
    (geocodeAddressStub [] "123 Pike St, Seattle".data =
        some (mockGeocodeResult "123 Pike St, Seattle".data) ∧
      (mockGeocodeResult "123 Pike St, Seattle".data).latitude = 47.6062 ∧
      (mockGeocodeResult "123 Pike St, Seattle".data).longitude = -122.3321 ∧
      (mockGeocodeResult "123 Pike St, Seattle".data).confidence =
        (if goContains ",".data "123 Pike St, Seattle".data = true ∧
            3 < fieldsCount "123 Pike St, Seattle".data
          then (0.8 : ℚ) else 0.7)) :=
  ⟨by decide,
   claim_C9_geocode_stub "123 Pike St, Seattle".data (by decide) (by decide)
     (by decide) (by decide) (by decide) (by decide)⟩

/-- A row of the `events` table (`models.Event`); `rowId` stands in for the
uuid primary key. -/
structure EventRow where
  rowId : Nat
  canonicalKey : List Char
  title : List Char
  startTs : GoTime
  endTs : Option GoTime
  venueId : Option Nat
  description : Option (List Char)
  url : Option (List Char)
  price : Option (List Char)
  organizer : Option (List Char)
  source : List Char
  publishedVia : List Char
  qualityScore : Option ℚ
  moderationState : List Char
deriving DecidableEq, Repr

/-- Embeds `db.Where("canonical_key = ?", key).First(...)`: the first row with the
canonical key. -/
def findByKey : List EventRow → List Char → Option EventRow
  | [], _ => none
  | e :: rest, k => if e.canonicalKey = k then some e else findByKey rest k

/-- Embeds `db.Model(&existingEvent).Update("moderation_state", "approved")`:
update the row with the given primary key in place. -/
def setApproved (st : List EventRow) (id : Nat) : List EventRow :=
  st.map (fun e => if e.rowId = id then { e with moderationState := "approved".data } else e)

/-- Database errors surfaced by the embedded `Create`. -/
inductive DBErr where
  | uniqueViolation
deriving DecidableEq, Repr

/-- Embeds `db.Create(&event)` against `UNIQUE(canonical_key)`: fails when a row
with the same canonical key already exists, else appends. -/
def dbCreateEvent (st : List EventRow) (e : EventRow) : Except DBErr (List EventRow) :=
  match findByKey st e.canonicalKey with
  | some _ => .error .uniqueViolation
  | none => .ok (st ++ [e])

/-- Errors `promoteToPublicEvent` returns. -/
inductive PromoteErr where
  | missingTitle
  | createFailed
deriving DecidableEq, Repr

/-- A non-empty optional string field (`value, ok := ...; ok && value != ""`). -/
def optNonEmpty : Option (List Char) → Option (List Char)
  | some s => if s = [] then none else some s
  | none => none

/-- The date string `promoteToPublicEvent` resolves: the `date` field when it
is a non-empty string, else `date_time`, else empty. -/
def dateFieldOf (f : EventData) : List Char :=
  match optNonEmpty f.date with
  | some d => d
  | none => (optNonEmpty f.dateTime).getD []

/-- Assemble the `models.Event` record `promoteToPublicEvent` creates:
source "flyer", moderation state "approved", quality score copied from the
candidate's composite score, optional fields kept only when non-empty. -/
def buildEventRow (rid : Nat) (key title : List Char) (startTs : GoTime)
    (endTs : Option GoTime) (venueId : Option Nat) (f : EventData)
    (via : List Char) (score : Option ℚ) : EventRow :=
  { rowId := rid, canonicalKey := key, title := title, startTs := startTs,
    endTs := endTs, venueId := venueId,
    description := optNonEmpty f.description, url := optNonEmpty f.url,
    price := optNonEmpty f.price, organizer := optNonEmpty f.organizer,
    source := "flyer".data, publishedVia := via, qualityScore := score,
    moderationState := "approved".data }

/-- The auto-publish `promoteToPublicEvent` (upload handler), with the store
split into the rows seen by the lookup (`st`) and rows other actors insert
between the lookup and the insert (`extra`); sequential execution is
`extra = []`. Steps: require a non-empty title; resolve the start time; look
up by canonical key; found and not approved → in-place upgrade; found and
approved → no-op; absent → insert, any create failure returned as
`createFailed`. -/
def promoteAutoRace (f : EventData) (score : Option ℚ) (now : GoTime)
    (st extra : List EventRow) : Except PromoteErr (List EventRow) :=
  match f.title with
  | none => .error .missingTitle
  | some title =>
      if title = [] then .error .missingTitle
      else
        let startTs := resolveStartTime (dateFieldOf f) now
        let key := canonicalKeyChars title startTs
        match findByKey st key with
        | some e =>
            if e.moderationState ≠ "approved".data then
              .ok (setApproved (st ++ extra) e.rowId)
            else
              .ok (st ++ extra)
        | none =>
            let row := buildEventRow (st ++ extra).length key title startTs
              none none f "auto".data score
            match dbCreateEvent (st ++ extra) row with
            | .error _ => .error .createFailed
            | .ok st2 => .ok st2

/-- The auto-publish promotion run sequentially (no concurrent inserts). -/
def promoteAuto (f : EventData) (score : Option ℚ) (now : GoTime)
    (st : List EventRow) : Except PromoteErr (List EventRow) :=
  promoteAutoRace f score now st []

/-- Occurrences of a canonical key in the store. -/
def countKey : List EventRow → List Char → Nat
  | [], _ => 0
  | e :: rest, k => (if e.canonicalKey = k then 1 else 0) + countKey rest k

/-- A key has no occurrences exactly when the lookup misses. -/
theorem findByKey_none_iff (st : List EventRow) (k : List Char) :
    findByKey st k = none ↔ ∀ e ∈ st, e.canonicalKey ≠ k := by
  induction st with
  | nil => simp [findByKey]
  | cons e rest ih =>
      unfold findByKey
      by_cases h : e.canonicalKey = k
      · simp [h]
      · simp [h, ih]

/-- A missed lookup in a left part passes through an append. -/
theorem findByKey_append_left_none (st l : List EventRow) (k : List Char)
    (h : findByKey st k = none) : findByKey (st ++ l) k = findByKey l k := by
  induction st with
  | nil => rfl
  | cons e rest ih =>
      rw [List.cons_append]
      simp only [findByKey] at h ⊢
      by_cases he : e.canonicalKey = k
      · rw [if_pos he] at h
        exact absurd h (by simp)
      · rw [if_neg he] at h ⊢
        exact ih h

/-- Key counts add over appends. -/
theorem countKey_append (st l : List EventRow) (k : List Char) :
    countKey (st ++ l) k = countKey st k + countKey l k := by
  induction st with
  | nil => simp [countKey]
  | cons e rest ih =>
      rw [List.cons_append]
      simp only [countKey]
      rw [ih]
      ring

/-- A missed lookup means a zero key count. -/
theorem countKey_eq_zero (st : List EventRow) (k : List Char)
    (h : findByKey st k = none) : countKey st k = 0 := by
  induction st with
  | nil => rfl
  | cons e rest ih =>
      simp only [findByKey] at h
      simp only [countKey]
      by_cases he : e.canonicalKey = k
      · rw [if_pos he] at h
        exact absurd h (by simp)
      · rw [if_neg he] at h
        rw [if_neg he, ih h]

/-- The in-place upgrade inserts no row. -/
theorem setApproved_length (st : List EventRow) (id : Nat) :
    (setApproved st id).length = st.length := by
  unfold setApproved
  exact List.length_map st _

/-- Unfolding of the promotion once the title is known to be present and
non-empty. -/
theorem promoteAutoRace_eq (f : EventData) (score : Option ℚ) (now : GoTime)
    (st extra : List EventRow) (title : List Char)
    (hT : f.title = some title) (hne : title ≠ []) :
    promoteAutoRace f score now st extra =
      match findByKey st (canonicalKeyChars title (resolveStartTime (dateFieldOf f) now)) with
      | some e =>
          if e.moderationState ≠ "approved".data then
            Except.ok (setApproved (st ++ extra) e.rowId)
          else Except.ok (st ++ extra)
      | none =>
          match dbCreateEvent (st ++ extra)
            (buildEventRow (st ++ extra).length
              (canonicalKeyChars title (resolveStartTime (dateFieldOf f) now)) title
              (resolveStartTime (dateFieldOf f) now) none none f "auto".data score) with
          | .error _ => Except.error PromoteErr.createFailed
          | .ok st2 => Except.ok st2 := by
  simp only [promoteAutoRace, hT]
  rw [if_neg hne]

/-- C2: promotion looks up by canonical key first; an existing non-approved
event is upgraded in place with no new row; an existing approved event is a
no-op; only an absent key inserts, and the inserted row is approved and
carries the key — so promoting identical fields twice against a store
without the key yields exactly one row for that key and the second call
changes nothing. -/
theorem claim_C2_promotion_idempotent (f : EventData) (score : Option ℚ)
    (now : GoTime) (st : List EventRow) (title : List Char) (key : List Char)
    (hT : f.title = some title) (hne : title ≠ [])
    (hkey : key = canonicalKeyChars title (resolveStartTime (dateFieldOf f) now)) :
    (∀ e, findByKey st key = some e → e.moderationState ≠ "approved".data →
        promoteAuto f score now st = .ok (setApproved st e.rowId) ∧
        (setApproved st e.rowId).length = st.length) ∧
    (∀ e, findByKey st key = some e → e.moderationState = "approved".data →
        promoteAuto f score now st = .ok st) ∧
    (findByKey st key = none →
        ∃ row, promoteAuto f score now st = .ok (st ++ [row]) ∧
          row.canonicalKey = key ∧
          row.moderationState = "approved".data ∧
          countKey (st ++ [row]) key = 1 ∧
          promoteAuto f score now (st ++ [row]) = .ok (st ++ [row])) := by
  subst hkey
  have heq := promoteAutoRace_eq f score now st [] title hT hne
  rw [List.append_nil] at heq
  refine ⟨?_, ?_, ?_⟩
  · intro e hfind hstate
    refine ⟨?_, setApproved_length st e.rowId⟩
    unfold promoteAuto
    rw [heq, hfind]
    exact if_pos hstate
  · intro e hfind hstate
    unfold promoteAuto
    rw [heq, hfind]
    exact if_neg (fun hc => hc hstate)
  · intro hfind
    refine ⟨buildEventRow st.length
      (canonicalKeyChars title (resolveStartTime (dateFieldOf f) now)) title
      (resolveStartTime (dateFieldOf f) now) none none f "auto".data score,
      ?_, rfl, rfl, ?_, ?_⟩
    · unfold promoteAuto
      rw [heq, hfind]
      have hc : dbCreateEvent st
          (buildEventRow st.length
            (canonicalKeyChars title (resolveStartTime (dateFieldOf f) now)) title
            (resolveStartTime (dateFieldOf f) now) none none f "auto".data score) =
          Except.ok (st ++ [buildEventRow st.length
            (canonicalKeyChars title (resolveStartTime (dateFieldOf f) now)) title
            (resolveStartTime (dateFieldOf f) now) none none f "auto".data score]) := by
        unfold dbCreateEvent
        rw [show (buildEventRow st.length
            (canonicalKeyChars title (resolveStartTime (dateFieldOf f) now)) title
            (resolveStartTime (dateFieldOf f) now) none none f "auto".data
            score).canonicalKey =
          canonicalKeyChars title (resolveStartTime (dateFieldOf f) now) from rfl]
        rw [hfind]
      rw [hc]
    · rw [countKey_append, countKey_eq_zero st _ hfind]
      simp only [countKey]
      simp [buildEventRow]
    · have heq2 := promoteAutoRace_eq f score now
        (st ++ [buildEventRow st.length
          (canonicalKeyChars title (resolveStartTime (dateFieldOf f) now)) title
          (resolveStartTime (dateFieldOf f) now) none none f "auto".data score]) [] title hT hne
      rw [List.append_nil] at heq2
      have hfind2 : findByKey
          (st ++ [buildEventRow st.length
            (canonicalKeyChars title (resolveStartTime (dateFieldOf f) now)) title
            (resolveStartTime (dateFieldOf f) now) none none f "auto".data score])
          (canonicalKeyChars title (resolveStartTime (dateFieldOf f) now)) =
          some (buildEventRow st.length
            (canonicalKeyChars title (resolveStartTime (dateFieldOf f) now)) title
            (resolveStartTime (dateFieldOf f) now) none none f "auto".data score) := by
        rw [findByKey_append_left_none st _ _ hfind]
        simp only [findByKey]
        simp [buildEventRow]
      unfold promoteAuto
      rw [heq2, hfind2]
      exact if_neg (fun hc => hc rfl)

/-- Witness for C2: promoting a concrete candidate twice from the empty
store inserts exactly one approved row and the second call is a no-op. -/
theorem claim_C2_promotion_idempotent_witness :
    (⟨some "Jazz Night".data, some "2024-07-15".data, none, none, none, none,
        none, none, none, none⟩ : EventData).title = some "Jazz Night".data ∧
    (findByKey [] "jazz night_2024-07-15".data = none →
      ∃ row, promoteAuto
          ⟨some "Jazz Night".data, some "2024-07-15".data, none, none, none,
            none, none, none, none, none⟩ (some 0.9) ⟨2024, 1, 1, 0, 0, 0⟩ [] =
          .ok ([] ++ [row]) ∧
        row.canonicalKey = "jazz night_2024-07-15".data ∧
        row.moderationState = "approved".data ∧
        countKey ([] ++ [row]) "jazz night_2024-07-15".data = 1 ∧
        promoteAuto
          ⟨some "Jazz Night".data, some "2024-07-15".data, none, none, none,
            none, none, none, none, none⟩ (some 0.9) ⟨2024, 1, 1, 0, 0, 0⟩
          ([] ++ [row]) = .ok ([] ++ [row])) :=
  ⟨rfl,
   (claim_C2_promotion_idempotent
      ⟨some "Jazz Night".data, some "2024-07-15".data, none, none, none, none,
        none, none, none, none⟩ (some 0.9) ⟨2024, 1, 1, 0, 0, 0⟩ []
      "Jazz Night".data "jazz night_2024-07-15".data rfl (by decide)
      (by decide)).2.2⟩

/-- Fields of a concrete publishable candidate: title "Jazz Night", date
"2024-07-15". -/
def exPromoteFields : EventData :=
  ⟨some "Jazz Night".data, some "2024-07-15".data, none, none, none, none,
    none, none, none, none⟩

/-- An event row already holding the candidate's canonical key, in state
"pending" (for example inserted concurrently after the lookup). -/
def exConflictRow : EventRow :=
  { rowId := 7, canonicalKey := "jazz night_2024-07-15".data,
    title := "Jazz Night".data, startTs := ⟨2024, 7, 15, 0, 0, 0⟩,
    endTs := none, venueId := none, description := none, url := none,
    price := none, organizer := none, source := "flyer".data,
    publishedVia := "auto".data, qualityScore := none,
    moderationState := "pending".data }

/-- C3 counterexample: when the insert hits the unique-constraint violation
(lookup saw no row, insert-time store has one), promotion returns the
violation as the error `createFailed` and leaves the conflicting row
unapproved — it does not fall through to the upgrade path, which would have
produced the approved row shown. -/
theorem claim_C3_counterexample :
    promoteAutoRace exPromoteFields (some 0.9) ⟨2024, 1, 1, 0, 0, 0⟩ []
        [exConflictRow] = .error PromoteErr.createFailed ∧
    setApproved [exConflictRow] exConflictRow.rowId =
      [{ exConflictRow with moderationState := "approved".data }] := by
  constructor
  · rfl
  · rfl

/-- C3 (amended): a unique-constraint violation on the Event insert (the key
was absent at lookup but present at insert time) is returned by promotion as
the fatal error `createFailed`; promotion does not fall through to the
upgrade path, so dedup safety rests solely on the pre-insert lookup. -/
theorem claim_C3_insert_conflict (f : EventData) (score : Option ℚ)
    (now : GoTime) (st extra : List EventRow) (title : List Char)
    (hT : f.title = some title) (hne : title ≠ [])
    (hmiss : findByKey st
      (canonicalKeyChars title (resolveStartTime (dateFieldOf f) now)) = none)
    (hconf : findByKey (st ++ extra)
      (canonicalKeyChars title (resolveStartTime (dateFieldOf f) now)) ≠ none) :
    promoteAutoRace f score now st extra = .error PromoteErr.createFailed := by
  have heq := promoteAutoRace_eq f score now st extra title hT hne
  rw [heq, hmiss]
  have hkeyrow : (buildEventRow (st ++ extra).length
      (canonicalKeyChars title (resolveStartTime (dateFieldOf f) now)) title
      (resolveStartTime (dateFieldOf f) now) none none f "auto".data
      score).canonicalKey =
      canonicalKeyChars title (resolveStartTime (dateFieldOf f) now) := rfl
  unfold dbCreateEvent
  rw [hkeyrow]
  cases hlook : findByKey (st ++ extra)
      (canonicalKeyChars title (resolveStartTime (dateFieldOf f) now)) with
  | none => exact absurd hlook hconf
  | some e => rfl

/-- Witness for C3 at the concrete conflicting store. -/
theorem claim_C3_insert_conflict_witness :
    ("Jazz Night".data ≠ ([] : List Char)) ∧
    promoteAutoRace exPromoteFields (some 0.9) ⟨2024, 1, 1, 0, 0, 0⟩ []
      [exConflictRow] = .error PromoteErr.createFailed :=
  ⟨by decide,
   claim_C3_insert_conflict exPromoteFields (some 0.9) ⟨2024, 1, 1, 0, 0, 0⟩
     [] [exConflictRow] "Jazz Night".data rfl (by decide) rfl (by decide)⟩

/-- A row of the `venues` table (`models.Venue`); `rowId` stands in for the
uuid primary key. -/
structure VenueRow where
  rowId : Nat
  name : List Char
  addressLine : Option (List Char)
  city : Option (List Char)
  state : Option (List Char)
  postalCode : Option (List Char)
  location : Option (List Char)
  geocodeConfidence : Option ℚ
  geocodeData : Option (List Char)
deriving DecidableEq, Repr

/-- Embeds `tx.Where("name ILIKE ?", venueName).First(&venue)`: first venue whose
name matches case-insensitively (names are assumed free of the SQL pattern
metacharacters `%` and `_`, as plain venue names are). -/
def findVenueCI : List VenueRow → List Char → Option VenueRow
  | [], _ => none
  | v :: rest, name =>
      if lowerStr v.name = lowerStr name then some v else findVenueCI rest name

/-- The optional end time the admin promotion parses from `end_date` with
its own ordered format list (no past-date shift, no fallback). -/
def endTsOf (f : EventData) : Option GoTime :=
  match optNonEmpty f.endDate with
  | some s => tryFormatsFirst endFormats s
  | none => none

/-- Venue resolution of the admin promotion: no venue field → no reference;
a case-insensitive name match → reference the existing venue; otherwise
create a minimal venue (name plus address line, no location and no geocode
data — geocoding is not re-run) and reference it. -/
def venueStepOf (f : EventData) (vns : List VenueRow) :
    Option Nat × List VenueRow :=
  match optNonEmpty f.venue with
  | none => (none, vns)
  | some vname =>
      match findVenueCI vns vname with
      | some w => (some w.rowId, vns)
      | none =>
          let w : VenueRow :=
            { rowId := vns.length, name := vname,
              addressLine := optNonEmpty f.address, city := none,
              state := none, postalCode := none, location := none,
              geocodeConfidence := none, geocodeData := none }
          (some w.rowId, vns ++ [w])

/-- The manual-approval `promoteToPublicEvent` (admin handler): like the auto
path but `published_via = "manual"`, with end-time parsing and venue
resolution, the inserted event referencing the venue. An existing event for
the key returns before any venue handling. -/
def promoteManual (f : EventData) (score : Option ℚ) (now : GoTime)
    (evs : List EventRow) (vns : List VenueRow) :
    Except PromoteErr (List EventRow × List VenueRow) :=
  match f.title with
  | none => .error .missingTitle
  | some title =>
      if title = [] then .error .missingTitle
      else
        let startTs := resolveStartTime (dateFieldOf f) now
        let key := canonicalKeyChars title startTs
        match findByKey evs key with
        | some e =>
            if e.moderationState ≠ "approved".data then
              .ok (setApproved evs e.rowId, vns)
            else
              .ok (evs, vns)
        | none =>
            let venueStep := venueStepOf f vns
            let row := buildEventRow evs.length key title startTs (endTsOf f)
              venueStep.1 f "manual".data score
            match dbCreateEvent evs row with
            | .error _ => .error .createFailed
            | .ok evs2 => .ok (evs2, venueStep.2)

/-- Unfolding of the manual promotion on the insert path (title present and
non-empty, canonical key absent). -/
theorem promoteManual_insert_eq (f : EventData) (score : Option ℚ)
    (now : GoTime) (evs : List EventRow) (vns : List VenueRow)
    (title : List Char) (hT : f.title = some title) (hne : title ≠ [])
    (hmiss : findByKey evs
      (canonicalKeyChars title (resolveStartTime (dateFieldOf f) now)) = none) :
    promoteManual f score now evs vns =
      match dbCreateEvent evs
        (buildEventRow evs.length
          (canonicalKeyChars title (resolveStartTime (dateFieldOf f) now)) title
          (resolveStartTime (dateFieldOf f) now) (endTsOf f)
          (venueStepOf f vns).1 f "manual".data score) with
      | .error _ => Except.error PromoteErr.createFailed
      | .ok evs2 => Except.ok (evs2, (venueStepOf f vns).2) := by
  simp only [promoteManual, hT]
  rw [if_neg hne]
  simp only [hmiss]

/-- Fields of a candidate carrying a venue name and address. -/
def exVenueFields : EventData :=
  ⟨some "Jazz Night".data, some "2024-07-15".data, none, some "Blue Note".data,
    some "123 Main St".data, none, none, none, none, none⟩

/-- C8 counterexample: the auto-publish promotion performs no venue
resolution — for a candidate with a venue name the inserted Event carries no
venue reference. -/
theorem claim_C8_counterexample :
    optNonEmpty exVenueFields.venue = some "Blue Note".data ∧
    promoteAuto exVenueFields (some 0.9) ⟨2024, 1, 1, 0, 0, 0⟩ [] =
      .ok [buildEventRow 0 "jazz night_2024-07-15".data "Jazz Night".data
        ⟨2024, 7, 15, 0, 0, 0⟩ none none exVenueFields "auto".data (some 0.9)] ∧
    (buildEventRow 0 "jazz night_2024-07-15".data "Jazz Night".data
        ⟨2024, 7, 15, 0, 0, 0⟩ none none exVenueFields "auto".data
        (some 0.9)).venueId = none := by
  refine ⟨rfl, ?_, rfl⟩
  rfl

/-- C8 (amended): only the manual (admin) promotion path resolves the venue —
case-insensitive lookup by name, creating a minimal venue (name plus address
line, no location, no geocode data) when absent — and its inserted Event
carries the venue reference; the auto-publish promotion path inserts the
Event with no venue reference at all. -/
theorem claim_C8_venue_resolution :
    (∀ (f : EventData) (score : Option ℚ) (now : GoTime) (st : List EventRow)
        (title : List Char), f.title = some title → title ≠ [] →
        findByKey st (canonicalKeyChars title (resolveStartTime (dateFieldOf f) now)) = none →
        promoteAuto f score now st =
          .ok (st ++ [buildEventRow st.length
            (canonicalKeyChars title (resolveStartTime (dateFieldOf f) now)) title
            (resolveStartTime (dateFieldOf f) now) none none f "auto".data score]) ∧
        (buildEventRow st.length
          (canonicalKeyChars title (resolveStartTime (dateFieldOf f) now)) title
          (resolveStartTime (dateFieldOf f) now) none none f "auto".data
          score).venueId = none) ∧
    (∀ (f : EventData) (score : Option ℚ) (now : GoTime) (evs : List EventRow)
        (vns : List VenueRow) (title : List Char),
        f.title = some title → title ≠ [] →
        findByKey evs (canonicalKeyChars title (resolveStartTime (dateFieldOf f) now)) = none →
        promoteManual f score now evs vns =
          .ok (evs ++ [buildEventRow evs.length
              (canonicalKeyChars title (resolveStartTime (dateFieldOf f) now)) title
              (resolveStartTime (dateFieldOf f) now) (endTsOf f)
              (venueStepOf f vns).1 f "manual".data score],
            (venueStepOf f vns).2) ∧
        (buildEventRow evs.length
          (canonicalKeyChars title (resolveStartTime (dateFieldOf f) now)) title
          (resolveStartTime (dateFieldOf f) now) (endTsOf f)
          (venueStepOf f vns).1 f "manual".data score).venueId =
          (venueStepOf f vns).1) ∧
    (∀ (f : EventData) (vns : List VenueRow), optNonEmpty f.venue = none →
        venueStepOf f vns = (none, vns)) ∧
    (∀ (f : EventData) (vns : List VenueRow) (vname : List Char) (w : VenueRow),
        optNonEmpty f.venue = some vname → findVenueCI vns vname = some w →
        venueStepOf f vns = (some w.rowId, vns)) ∧
    (∀ (f : EventData) (vns : List VenueRow) (vname : List Char),
        optNonEmpty f.venue = some vname → findVenueCI vns vname = none →
        venueStepOf f vns = (some vns.length, vns ++
          [{ rowId := vns.length, name := vname,
             addressLine := optNonEmpty f.address, city := none, state := none,
             postalCode := none, location := none, geocodeConfidence := none,
             geocodeData := none }])) := by
  refine ⟨?_, ?_, ?_, ?_, ?_⟩
  · intro f score now st title hT hne hmiss
    refine ⟨?_, rfl⟩
    have heq := promoteAutoRace_eq f score now st [] title hT hne
    rw [List.append_nil] at heq
    unfold promoteAuto
    rw [heq, hmiss]
    have hc : dbCreateEvent st
        (buildEventRow st.length
          (canonicalKeyChars title (resolveStartTime (dateFieldOf f) now)) title
          (resolveStartTime (dateFieldOf f) now) none none f "auto".data score) =
        Except.ok (st ++ [buildEventRow st.length
          (canonicalKeyChars title (resolveStartTime (dateFieldOf f) now)) title
          (resolveStartTime (dateFieldOf f) now) none none f "auto".data score]) := by
      unfold dbCreateEvent
      rw [show (buildEventRow st.length
          (canonicalKeyChars title (resolveStartTime (dateFieldOf f) now)) title
          (resolveStartTime (dateFieldOf f) now) none none f "auto".data
          score).canonicalKey =
        canonicalKeyChars title (resolveStartTime (dateFieldOf f) now) from rfl]
      rw [hmiss]
    rw [hc]
  · intro f score now evs vns title hT hne hmiss
    refine ⟨?_, rfl⟩
    have heq := promoteManual_insert_eq f score now evs vns title hT hne hmiss
    rw [heq]
    have hc : dbCreateEvent evs
        (buildEventRow evs.length
          (canonicalKeyChars title (resolveStartTime (dateFieldOf f) now)) title
          (resolveStartTime (dateFieldOf f) now) (endTsOf f)
          (venueStepOf f vns).1 f "manual".data score) =
        Except.ok (evs ++ [buildEventRow evs.length
          (canonicalKeyChars title (resolveStartTime (dateFieldOf f) now)) title
          (resolveStartTime (dateFieldOf f) now) (endTsOf f)
          (venueStepOf f vns).1 f "manual".data score]) := by
      unfold dbCreateEvent
      rw [show (buildEventRow evs.length
          (canonicalKeyChars title (resolveStartTime (dateFieldOf f) now)) title
          (resolveStartTime (dateFieldOf f) now) (endTsOf f)
          (venueStepOf f vns).1 f "manual".data score).canonicalKey =
        canonicalKeyChars title (resolveStartTime (dateFieldOf f) now) from rfl]
      rw [hmiss]
    rw [hc]
  · intro f vns hv
    simp only [venueStepOf, hv]
  · intro f vns vname w hv hw
    simp only [venueStepOf, hv, hw]
  · intro f vns vname hv hw
    simp only [venueStepOf, hv, hw]

/-- Witness for C8: the manual promotion of a concrete candidate against
empty stores creates the minimal venue and references it from the event. -/
theorem claim_C8_venue_resolution_witness :
    ("Jazz Night".data ≠ ([] : List Char)) ∧
    (promoteManual exVenueFields (some 0.9) ⟨2024, 1, 1, 0, 0, 0⟩ [] [] =
      .ok ([buildEventRow 0
          (canonicalKeyChars "Jazz Night".data
            (resolveStartTime (dateFieldOf exVenueFields) ⟨2024, 1, 1, 0, 0, 0⟩))
          "Jazz Night".data
          (resolveStartTime (dateFieldOf exVenueFields) ⟨2024, 1, 1, 0, 0, 0⟩)
          (endTsOf exVenueFields) (venueStepOf exVenueFields []).1 exVenueFields
          "manual".data (some 0.9)],
        (venueStepOf exVenueFields []).2) ∧
      (buildEventRow 0
        (canonicalKeyChars "Jazz Night".data
          (resolveStartTime (dateFieldOf exVenueFields) ⟨2024, 1, 1, 0, 0, 0⟩))
        "Jazz Night".data
        (resolveStartTime (dateFieldOf exVenueFields) ⟨2024, 1, 1, 0, 0, 0⟩)
        (endTsOf exVenueFields) (venueStepOf exVenueFields []).1 exVenueFields
        "manual".data (some 0.9)).venueId = (venueStepOf exVenueFields []).1) :=
  ⟨by decide,
   claim_C8_venue_resolution.2.1 exVenueFields (some 0.9) ⟨2024, 1, 1, 0, 0, 0⟩
     [] [] "Jazz Night".data rfl (by decide) rfl⟩

/-- One extracted event inside a detected flyer region, as `SaveResults`
consumes it; the marshalled fields/confidences JSON strings are carried
opaquely. -/
structure VisEvent where
  eventId : List Char
  fieldsJson : List Char
  confidencesJson : List Char
  excerpt : List Char
  overall : ℚ
deriving DecidableEq, Repr

/-- One detected flyer region from the extraction output. -/
structure VisFlyer where
  regionId : List Char
  confidence : ℚ
  polygonJson : List Char
  rotation : Option ℚ
  notes : List Char
  events : List VisEvent
deriving DecidableEq, Repr

/-- A row of the `flyers` table created by `SaveResults`. -/
structure FlyerRow where
  rowId : Nat
  submissionId : Nat
  regionId : List Char
  polygonJson : List Char
  rotation : Option ℚ
  confidence : ℚ
  notes : List Char
deriving DecidableEq, Repr

/-- A row of the `event_candidates` table created by `SaveResults`. -/
structure CandidateRow where
  rowId : Nat
  flyerId : Nat
  eventId : List Char
  fieldsJson : List Char
  confidencesJson : List Char
  excerpt : List Char
  compositeScore : ℚ
deriving DecidableEq, Repr

/-- The inner loop of `SaveResults`: create one candidate row per extracted
event of a flyer region. -/
def saveCandidates (fid : Nat) : List VisEvent → List CandidateRow → List CandidateRow
  | [], cs => cs
  | e :: rest, cs =>
      saveCandidates fid rest
        (cs ++ [⟨cs.length, fid, e.eventId, e.fieldsJson, e.confidencesJson,
          e.excerpt, e.overall⟩])

/-- Embeds `SaveResults`: for each detected region create a flyer row, then a
candidate row per event; every call unconditionally appends. -/
def saveResults (sid : Nat) :
    List VisFlyer → List FlyerRow × List CandidateRow →
    List FlyerRow × List CandidateRow
  | [], st => st
  | fr :: rest, (fl, cs) =>
      let flyer : FlyerRow := ⟨fl.length, sid, fr.regionId, fr.polygonJson,
        fr.rotation, fr.confidence, fr.notes⟩
      saveResults sid rest (fl ++ [flyer], saveCandidates flyer.rowId fr.events cs)

/-- Total number of extracted events across detected regions. -/
def totalVisEvents : List VisFlyer → Nat
  | [] => 0
  | fr :: rest => fr.events.length + totalVisEvents rest

/-- Each inner loop pass appends exactly the region's events. -/
theorem saveCandidates_length (fid : Nat) (es : List VisEvent) :
    ∀ cs : List CandidateRow,
      (saveCandidates fid es cs).length = cs.length + es.length := by
  induction es with
  | nil => intro cs; simp [saveCandidates]
  | cons e rest ih =>
      intro cs
      simp only [saveCandidates]
      rw [ih]
      simp
      omega

/-- A single extraction output used to run `SaveResults` twice. -/
def exVisFlyer : VisFlyer :=
  ⟨"flyer_1".data, 0.9, "[]".data, none, "ok".data,
    [⟨"event_1_1".data, "fields".data, "confs".data, "excerpt".data, 0.8⟩]⟩

/-- C10 counterexample: running `SaveResults` a second time on identical
output for the same submission duplicates the rows — one flyer and one
candidate after the first run, two of each after the second. -/
theorem claim_C10_counterexample :
    (saveResults 1 [exVisFlyer] ([], [])).1.length = 1 ∧
    (saveResults 1 [exVisFlyer] ([], [])).2.length = 1 ∧
    (saveResults 1 [exVisFlyer] (saveResults 1 [exVisFlyer] ([], []))).1.length = 2 ∧
    (saveResults 1 [exVisFlyer] (saveResults 1 [exVisFlyer] ([], []))).2.length = 2 := by
  refine ⟨rfl, rfl, rfl, rfl⟩

/-- C10 (amended): `SaveResults` has no idempotence guard — every run appends
one flyer row per detected region and one candidate row per extracted event,
so a re-run for the same submission with identical output adds that many
rows again instead of leaving the row sets unchanged. -/
theorem claim_C10_save_results_appends (sid : Nat) (res : List VisFlyer) :
    ∀ (fl : List FlyerRow) (cs : List CandidateRow),
      (saveResults sid res (fl, cs)).1.length = fl.length + res.length ∧
      (saveResults sid res (fl, cs)).2.length = cs.length + totalVisEvents res := by
  induction res with
  | nil => intro fl cs; simp [saveResults, totalVisEvents]
  | cons fr rest ih =>
      intro fl cs
      simp only [saveResults, totalVisEvents]
      refine ⟨?_, ?_⟩
      · rw [(ih _ _).1]
        simp
        omega
      · rw [(ih _ _).2]
        rw [saveCandidates_length]
        omega
